import Mathlib

/-!
Shallow embedding of the CARP solver (repository `Grafos`, files
`etapa3/algoritmo_construtivo.py` and `etapa2/algoritmo_construtivo.py`,
`etapa2/grasp.py`), together with theorems settling the specification claims.

Conventions of the embedding:
* a Python service dict becomes the structure `Servico`;
* the all-pairs distance matrix becomes a function `Mat := Nat → Nat → Nat`
  (distances in the instances are non-negative integers);
* demand bookkeeping lists are `List Int`, matching Python integers, because
  the (buggy) demand synchronisation can drive entries below the true values;
* Python's `random.choice` is replaced by an explicit oracle of choices
  (`escolhas : List Nat`, one entry consumed per loop iteration, reduced
  modulo the candidate-pool size), so each run is a pure function of the
  oracle — this mirrors the code's own determinism-by-seeding design;
* `while` loops driven by a strictly decreasing natural cost are unrolled
  with an explicit fuel parameter; the theorems quantify over every fuel
  value, and the concrete evaluations also show the scan reached its fixed
  point (the move finder returns `none`), so the fuel embedding coincides
  with the Python run;
* Python exceptions become `Except String`.
-/

namespace Grafos

/-- A mandatory service record, as read by `leitor_grafo.py`:
id, origin vertex, destination vertex, demand and service cost. -/
structure Servico where
  id_servico : Nat
  origem : Nat
  destino : Nat
  demanda : Int
  custo_servico : Nat
deriving DecidableEq, Repr

instance : Inhabited Servico := ⟨⟨0, 0, 0, 0, 0⟩⟩

/-- The precomputed all-pairs shortest-path oracle (`matriz_distancias`). -/
def Mat : Type := Nat → Nat → Nat

/-- Transport cost of visiting the destinations `ds` starting from vertex
`atual` and finally returning to the depot: the loop body of `rota_custo`
(`custo_transporte += matriz[d_i][d_{i+1}]` then `+= matriz[d_last][deposito]`). -/
def percorre (m : Mat) (deposito : Nat) : Nat → List Nat → Nat
  | atual, [] => m atual deposito
  | atual, d :: ds => m atual d + percorre m deposito d ds

/-- `rota_custo` from `etapa3/algoritmo_construtivo.py` (lines 29-54):
service costs plus transport cost over the services' destination vertices
(depot → first destination, destination → next destination, last
destination → depot). -/
def rota_custo (m : Mat) (deposito : Nat) (rota : List Servico) : Nat :=
  match rota with
  | [] => 0
  | s :: resto =>
      ((s :: resto).map (fun t => t.custo_servico)).sum
        + (m deposito s.destino
            + percorre m deposito s.destino (resto.map (fun t => t.destino)))

/-- Transport chain as the specification words it: from the current
service's destination to the NEXT service's ORIGIN, and from the last
service's destination back to the depot. -/
def percorreEspecificado (m : Mat) (deposito : Nat) : Servico → List Servico → Nat
  | atual, [] => m atual.destino deposito
  | atual, t :: ts => m atual.destino t.origem + percorreEspecificado m deposito t ts

/-- Route cost exactly as the specification describes it (spec §4.2):
sum of service costs, plus depot → first service's ORIGIN, plus, for each
consecutive pair, earlier destination → later ORIGIN, plus last
destination → depot.  This definition follows the spec's words and exists
to be compared with the source definition `rota_custo`. -/
def custo_rota_especificado (m : Mat) (deposito : Nat) (rota : List Servico) : Nat :=
  match rota with
  | [] => 0
  | s :: resto =>
      ((s :: resto).map (fun t => t.custo_servico)).sum
        + (m deposito s.origem + percorreEspecificado m deposito s resto)

/-- Route cost of `rota_custo` re-expressed over adjacent destination
pairs: the transport part is the sum of `m a b` over consecutive pairs of
the vertex sequence `deposito :: destinations ++ [deposito]`. -/
def custo_rota_destinos (m : Mat) (deposito : Nat) (rota : List Servico) : Nat :=
  match rota with
  | [] => 0
  | _ =>
      (rota.map (fun t => t.custo_servico)).sum
        + (((deposito :: rota.map (fun t => t.destino)).zip
              (rota.map (fun t => t.destino) ++ [deposito])).map
            (fun p => m p.1 p.2)).sum

/-- `construir_rotas_iniciais` from `etapa3/algoritmo_construtivo.py`
(lines 4-27): one singleton route per service, no demand guard. -/
def construir_rotas_iniciais (servicos : List Servico) :
    List (List Servico) × List Int :=
  (servicos.map (fun s => [s]), servicos.map (fun s => s.demanda))

/-- Loop body of `construir_rotas_iniciais` from
`etapa2/algoritmo_construtivo.py` (lines 1-10): raises `ValueError` as soon
as a service's demand exceeds the capacity, otherwise appends the singleton
route and its demand. -/
def construirRotasIniciaisE2Aux (capacidade : Int) :
    List Servico → List (List Servico) → List Int →
    Except String (List (List Servico) × List Int)
  | [], rotas, demandas => Except.ok (rotas, demandas)
  | s :: resto, rotas, demandas =>
      if s.demanda > capacidade then
        Except.error "Servico demanda maior que capacidade do veiculo!"
      else
        construirRotasIniciaisE2Aux capacidade resto (rotas ++ [[s]])
          (demandas ++ [s.demanda])

/-- `construir_rotas_iniciais` from `etapa2/algoritmo_construtivo.py`:
the guarded simplified constructor. -/
def construirRotasIniciaisE2 (servicos : List Servico) (capacidade : Int) :
    Except String (List (List Servico) × List Int) :=
  construirRotasIniciaisE2Aux capacidade servicos [] []

/-- One Clarke-Wright saving triple `(saving, i, j)` (Int because the
saving can be negative). -/
def Sav : Type := Int × Nat × Nat

instance : DecidableEq Sav := by unfold Sav; infer_instance

instance : Inhabited Sav := ⟨((0 : Int), 0, 0)⟩

/-- Descending lexicographic order on saving triples: this is the order
`savings.sort(reverse=True)` produces on Python tuples (all triples are
distinct because the index pairs are, so the sort result is unique). -/
def savGe (a b : Sav) : Prop :=
  b.1 < a.1 ∨ (a.1 = b.1 ∧ (b.2.1 < a.2.1 ∨ (a.2.1 = b.2.1 ∧ b.2.2 ≤ a.2.2)))

instance : DecidableRel savGe := by
  intro a b; unfold savGe; infer_instance

/-- `calcular_savings` from `etapa3/algoritmo_construtivo.py` (lines 56-86):
for every pair `i < j`, saving `= m[dep][dest_i] + m[dep][dest_j] -
m[dest_i][dest_j]`, sorted descending. -/
def calcular_savings (servicos : List Servico) (deposito : Nat) (m : Mat) :
    List Sav :=
  let n := servicos.length
  let brutos : List Sav :=
    (List.range n).flatMap (fun i =>
      (List.range' (i + 1) (n - (i + 1))).map (fun j =>
        let si := servicos.getD i default
        let sj := servicos.getD j default
        (((m deposito si.destino : Int) + (m deposito sj.destino : Int)
            - (m si.destino sj.destino : Int)), i, j)))
  brutos.insertionSort savGe

/-- The index search of `clarke_wright_grasp` (lines 125-130): one pass over
`rotas` recording the LAST index whose route satisfies `p` (the Python loop
overwrites `idx_i`/`idx_j` on every match). -/
def ultimoIndice (rotas : List (List Servico)) (p : List Servico → Bool) :
    Option Nat :=
  (List.range rotas.length).foldl
    (fun acc idx => if p (rotas.getD idx []) then some idx else acc) none

/-- The merge attempt of `clarke_wright_grasp` (lines 132-141): when both
index searches succeeded, the routes are distinct and the combined demand
fits, concatenate route `b` after route `a`, empty route `b`, and update
the two demand entries; otherwise leave the state untouched. -/
def cwFunde (capacidade : Int) (rotas : List (List Servico))
    (demandas : List Int) :
    Option Nat → Option Nat → List (List Servico) × List Int
  | some a, some b =>
      if a ≠ b ∧ demandas.getD a 0 + demandas.getD b 0 ≤ capacidade then
        ((rotas.set a (rotas.getD a [] ++ rotas.getD b [])).set b [],
         (demandas.set a (demandas.getD a 0 + demandas.getD b 0)).set b 0)
      else (rotas, demandas)
  | _, _ => (rotas, demandas)

/-- One iteration body of the `while savings_disponiveis` loop of
`clarke_wright_grasp` (lines 118-144): pick a saving from the top-k pool
(choice supplied by the oracle), locate the route starting with service `i`
and the route ending with service `j`, merge when possible (`cwFunde`),
and remove the chosen saving. -/
def cwPasso (servicos : List Servico) (capacidade : Int) (k : Nat)
    (savs : List Sav) (escolha : Nat)
    (rotas : List (List Servico)) (demandas : List Int) :
    List Sav × List (List Servico) × List Int :=
  let top_k := savs.take k
  let escolhido := top_k.getD (escolha % top_k.length) default
  let i := escolhido.2.1
  let j := escolhido.2.2
  let idx_i := ultimoIndice rotas (fun r =>
    decide (r ≠ []) && decide ((r.headD default).id_servico
      = (servicos.getD i default).id_servico))
  let idx_j := ultimoIndice rotas (fun r =>
    decide (r ≠ []) && decide ((r.getLastD default).id_servico
      = (servicos.getD j default).id_servico))
  (savs.erase escolhido, cwFunde capacidade rotas demandas idx_i idx_j)

/-- The `while savings_disponiveis` loop, driven by fuel (each iteration
removes the chosen saving, so fuel `= savings.length` replays the whole
Python loop). -/
def cwLoop (servicos : List Servico) (capacidade : Int) (k : Nat) :
    Nat → List Sav → List Nat → List (List Servico) → List Int →
    List (List Servico) × List Int
  | 0, _, _, rotas, demandas => (rotas, demandas)
  | _ + 1, [], _, rotas, demandas => (rotas, demandas)
  | fuel + 1, s :: savs, escolhas, rotas, demandas =>
      let r := cwPasso servicos capacidade k (s :: savs) (escolhas.headD 0)
        rotas demandas
      cwLoop servicos capacidade k fuel r.1 escolhas.tail r.2.1 r.2.2

/-- The empty-route pruning used by `clarke_wright_grasp` (lines 147-148)
and `relocate` (lines 205-206):
`rotas = [r for r in rotas if r]` followed by
`demandas = [d for r, d in zip(rotas, demandas) if r]` — note that `rotas`
has ALREADY been filtered when the second comprehension zips it with the
old `demandas`, which is the faithful (and, as proved below, desynchronising)
behaviour. -/
def podaBuggy (rotas : List (List Servico)) (demandas : List Int) :
    List (List Servico) × List Int :=
  let rotasNovas := rotas.filter (fun r => decide (r ≠ []))
  (rotasNovas,
   ((rotasNovas.zip demandas).filter (fun rd => decide (rd.1 ≠ []))).map
     (fun rd => rd.2))

/-- Python `set(xs) == set(ys)` on service-id lists. -/
def idsSetEq (xs ys : List Nat) : Bool :=
  xs.all (fun x => ys.contains x) && ys.all (fun y => xs.contains y)

/-- All service ids appearing across the routes, in order
(`[serv['id_servico'] for rota in rotas for serv in rota]`). -/
def idsNasRotas (rotas : List (List Servico)) : List Nat :=
  rotas.flatMap (fun r => r.map (fun s => s.id_servico))

/-- `clarke_wright_grasp` from `etapa3/algoritmo_construtivo.py`
(lines 88-156), with the random choices supplied by the oracle `escolhas`:
singleton routes, savings-driven merge loop, buggy pruning, and the final
coverage check (set equality of ids) that raises on divergence. -/
def clarke_wright_grasp (servicos : List Servico) (deposito : Nat) (m : Mat)
    (capacidade : Int) (k : Nat) (escolhas : List Nat) :
    Except String (List (List Servico) × List Int) :=
  let inicio := construir_rotas_iniciais servicos
  let savings := calcular_savings servicos deposito m
  let corpo := cwLoop servicos capacidade k savings.length savings escolhas
    inicio.1 inicio.2
  let podado := podaBuggy corpo.1 corpo.2
  if idsSetEq (servicos.map (fun s => s.id_servico)) (idsNasRotas podado.1) then
    Except.ok podado
  else
    Except.error "Erro: servicos obrigatorios perdidos na construcao GRASP!"

/-- The candidate move tried by `relocate` at `(i, j, idx)`: remove the
service at position `idx` of route `i` and append it to route `j`
(`nova_rota_i = rotas[i][:idx] + rotas[i][idx+1:]`,
`nova_rota_j = rotas[j] + [serv]`). -/
def relocateNovas (rotas : List (List Servico)) (i j idx : Nat) :
    List Servico × List Servico :=
  let rota_i := rotas.getD i []
  ((rota_i.take idx ++ rota_i.drop (idx + 1)),
   rotas.getD j [] ++ [rota_i.getD idx default])

/-- Acceptance test of `relocate` (lines 186-194), in the code's own order:
source route nonempty and distinct from target, capacity of the target
after the move, source stays nonempty, and the combined cost of the two
routes strictly decreases. -/
def relocateAceita (capacidade : Int) (m : Mat) (deposito : Nat)
    (rotas : List (List Servico)) (demandas : List Int)
    (i j idx : Nat) : Bool :=
  let rota_i := rotas.getD i []
  let serv := rota_i.getD idx default
  decide (i ≠ j) && decide (rota_i ≠ []) &&
  decide (demandas.getD j 0 + serv.demanda ≤ capacidade) &&
  (let novas := relocateNovas rotas i j idx
   decide (novas.1 ≠ []) &&
   decide (rota_custo m deposito novas.1 + rota_custo m deposito novas.2
      < rota_custo m deposito rota_i
        + rota_custo m deposito (rotas.getD j [])))

/-- The scan of `relocate`: first `(i, j, idx)` in the loop order
`i ∈ range(len(rotas))`, `j ∈ range(len(rotas))`, `idx` over route `i`
whose move is accepted. -/
def relocateAcha (capacidade : Int) (m : Mat) (deposito : Nat)
    (rotas : List (List Servico)) (demandas : List Int) :
    Option (Nat × Nat × Nat) :=
  (List.range rotas.length).findSome? (fun i =>
    (List.range rotas.length).findSome? (fun j =>
      (List.range (rotas.getD i []).length).findSome? (fun idx =>
        if relocateAceita capacidade m deposito rotas demandas i j idx then
          some (i, j, idx)
        else none)))

/-- Application of an accepted relocate move, including the incremental
demand bookkeeping `demandas[i] -= serv['demanda']`,
`demandas[j] += serv['demanda']`. -/
def relocateAplica (rotas : List (List Servico)) (demandas : List Int)
    (i j idx : Nat) : List (List Servico) × List Int :=
  let serv := (rotas.getD i []).getD idx default
  let novas := relocateNovas rotas i j idx
  ((rotas.set i novas.1).set j novas.2,
   (demandas.set i (demandas.getD i 0 - serv.demanda)).set j
     (demandas.getD j 0 + serv.demanda))

/-- The `while melhorou` loop of `relocate` (lines 179-204): apply the
first-improvement move and restart the scan, until a full scan finds
nothing. -/
def relocateLoop (capacidade : Int) (m : Mat) (deposito : Nat) :
    Nat → List (List Servico) → List Int →
    List (List Servico) × List Int
  | 0, rotas, demandas => (rotas, demandas)
  | fuel + 1, rotas, demandas =>
      match relocateAcha capacidade m deposito rotas demandas with
      | none => (rotas, demandas)
      | some mv =>
          let r := relocateAplica rotas demandas mv.1 mv.2.1 mv.2.2
          relocateLoop capacidade m deposito fuel r.1 r.2

/-- `relocate` from `etapa3/algoritmo_construtivo.py` (lines 160-207):
first-improvement service relocation to a fixed point, then the same buggy
pruning as the constructor. -/
def relocate (capacidade : Int) (m : Mat) (deposito : Nat) (fuel : Nat)
    (rotas : List (List Servico)) (demandas : List Int) :
    List (List Servico) × List Int :=
  let r := relocateLoop capacidade m deposito fuel rotas demandas
  podaBuggy r.1 r.2

/-- The position pairs scanned by `two_opt` on a route of length `n`:
`i ∈ range(1, n-1)`, `j ∈ range(i+1, n)`, in scan order. -/
def paresDuasOpt (n : Nat) : List (Nat × Nat) :=
  (List.range' 1 (n - 2)).flatMap (fun i =>
    (List.range' (i + 1) (n - 1 - i)).map (fun j => (i, j)))

/-- The candidate reversal of `two_opt`:
`melhor_rota[:i] + melhor_rota[i:j][::-1] + melhor_rota[j:]`. -/
def reverteSegmento (rota : List Servico) (i j : Nat) : List Servico :=
  rota.take i ++ ((rota.drop i).take (j - i)).reverse ++ rota.drop j

/-- `two_opt` from `etapa3/algoritmo_construtivo.py` (lines 211-242).
Routes shorter than 3 are returned untouched.  The Python
`while melhorou: ... ; if melhorou: break` structure executes the nested
scan exactly ONCE (it breaks out of the while as soon as a pass improved,
and falls out of the while when it did not), applying each strictly
improving reversal as it is found and continuing the scan from there; the
embedding is therefore a single fold over the scanned position pairs.  The
route length is constant through the pass, so evaluating the Python
`range` bounds against the initial length is faithful. -/
def two_opt (m : Mat) (deposito : Nat) (rota : List Servico) :
    List Servico :=
  if rota.length < 3 then rota
  else
    (paresDuasOpt rota.length).foldl (fun melhor p =>
      let nova := reverteSegmento melhor p.1 p.2
      if rota_custo m deposito nova < rota_custo m deposito melhor then nova
      else melhor) rota

/-- `vnd` from `etapa3/algoritmo_construtivo.py` (lines 245-266): relocate
to its fixed point, then `two_opt` independently on every route. -/
def vnd (capacidade : Int) (m : Mat) (deposito : Nat) (fuel : Nat)
    (rotas : List (List Servico)) (demandas : List Int) :
    List (List Servico) × List Int :=
  let r := relocate capacidade m deposito fuel rotas demandas
  (r.1.map (two_opt m deposito), r.2)

/-- The candidate block move of `segment_relocate` at `(i, j, start, fim)`:
`bloco = rota_origem[start:fim]`,
`nova_rota_origem = rota_origem[:start] + rota_origem[fim:]`,
`nova_rota_destino = rota_destino + bloco`. -/
def srNovas (rotas : List (List Servico)) (i j start fim : Nat) :
    List Servico × List Servico :=
  let origem := rotas.getD i []
  ((origem.take start ++ origem.drop fim),
   rotas.getD j [] ++ (origem.drop start).take (fim - start))

/-- Acceptance test of `segment_relocate` (lines 396-421), in the code's
order: routes distinct and nonempty, block nonempty and not the whole
source route, block demand fits the (possibly desynchronised) bookkeeping
demand of the target, source stays nonempty, combined cost strictly
decreases. -/
def srAceita (capacidade : Int) (m : Mat) (deposito : Nat)
    (rotas : List (List Servico)) (demandas : List Int)
    (i j start fim : Nat) : Bool :=
  let origem := rotas.getD i []
  let destino := rotas.getD j []
  let bloco := (origem.drop start).take (fim - start)
  decide (i ≠ j) && decide (origem ≠ []) && decide (destino ≠ []) &&
  decide (bloco ≠ []) && decide (bloco.length ≠ origem.length) &&
  decide (demandas.getD j 0 + (bloco.map (fun s => s.demanda)).sum
    ≤ capacidade) &&
  (let novas := srNovas rotas i j start fim
   decide (novas.1 ≠ []) &&
   decide (rota_custo m deposito novas.1 + rota_custo m deposito novas.2
      < rota_custo m deposito origem + rota_custo m deposito destino))

/-- The scan of `segment_relocate`: first `(i, j, start, fim)` in the loop
order `i`, `j` over routes, `start ∈ range(n)`, `fim ∈ range(start+1, n+1)`
whose move is accepted. -/
def srAcha (capacidade : Int) (m : Mat) (deposito : Nat)
    (rotas : List (List Servico)) (demandas : List Int) :
    Option (Nat × Nat × Nat × Nat) :=
  (List.range rotas.length).findSome? (fun i =>
    (List.range rotas.length).findSome? (fun j =>
      let n := (rotas.getD i []).length
      (List.range n).findSome? (fun start =>
        (List.range' (start + 1) (n - start)).findSome? (fun fim =>
          if srAceita capacidade m deposito rotas demandas i j start fim then
            some (i, j, start, fim)
          else none))))

/-- Application of an accepted segment move; here the demands of the two
touched routes are recomputed from scratch (lines 425-426). -/
def srAplica (rotas : List (List Servico)) (demandas : List Int)
    (i j start fim : Nat) : List (List Servico) × List Int :=
  let novas := srNovas rotas i j start fim
  ((rotas.set i novas.1).set j novas.2,
   (demandas.set i ((novas.1.map (fun s => s.demanda)).sum)).set j
     ((novas.2.map (fun s => s.demanda)).sum))

/-- The in-loop pruning of `segment_relocate` (lines 436-443), which —
unlike `podaBuggy` — zips the OLD route list with the demand list and so
keeps the two in step. -/
def podaCerta (rotas : List (List Servico)) (demandas : List Int) :
    List (List Servico) × List Int :=
  let pares := (rotas.zip demandas).filter (fun rd => decide (rd.1 ≠ []))
  (pares.map (fun rd => rd.1), pares.map (fun rd => rd.2))

/-- The `while melhorou` loop of `segment_relocate` (lines 392-443): scan,
apply the first improving move, prune, repeat; the pass that finds no move
still prunes before the loop exits. -/
def srLoop (capacidade : Int) (m : Mat) (deposito : Nat) :
    Nat → List (List Servico) → List Int →
    List (List Servico) × List Int
  | 0, rotas, demandas => (rotas, demandas)
  | fuel + 1, rotas, demandas =>
      match srAcha capacidade m deposito rotas demandas with
      | none => podaCerta rotas demandas
      | some mv =>
          let r := srAplica rotas demandas mv.1 mv.2.1 mv.2.2.1 mv.2.2.2
          let p := podaCerta r.1 r.2
          srLoop capacidade m deposito fuel p.1 p.2

/-- `segment_relocate` from `etapa3/algoritmo_construtivo.py`
(lines 370-451): block-relocation descent followed by the final coverage
check (id set equality AND no duplicated ids), raising on divergence. -/
def segment_relocate (capacidade : Int) (m : Mat) (deposito : Nat)
    (fuel : Nat) (rotas : List (List Servico)) (demandas : List Int)
    (servicos_obrigatorios : List Servico) :
    Except String (List (List Servico) × List Int) :=
  let r := srLoop capacidade m deposito fuel rotas demandas
  let ids := idsNasRotas r.1
  if idsSetEq (servicos_obrigatorios.map (fun s => s.id_servico)) ids
      && decide ids.Nodup then
    Except.ok r
  else
    Except.error
      "Erro: servicos obrigatorios perdidos ou duplicados apos segment relocate!"

/-- The incumbent-acceptance test of `multi_start_pipeline` (line 342):
`(custo_total < melhor_custo) or (custo_total == melhor_custo and
num_rotas < melhor_num_rotas)`.  The incumbent starts at
`float('inf')` for both fields, modelled by `none`: every finite cost
compares strictly below infinity, so a `none` incumbent is always
replaced. -/
def aceitaCandidato (incumbente : Option (Nat × Nat)) (custo num : Nat) :
    Bool :=
  match incumbente with
  | none => true
  | some mc =>
      decide (custo < mc.1) || (decide (custo = mc.1) && decide (num < mc.2))

/-- One incumbent update step of the multi-start loop. -/
def atualizaIncumbente (incumbente : Option (Nat × Nat)) (custo num : Nat) :
    Option (Nat × Nat) :=
  if aceitaCandidato incumbente custo num then some (custo, num)
  else incumbente

/-- The incumbent after a sequence of valid trials with the given
`(custo, num_rotas)` outcomes, starting from the infinite incumbent. -/
def selecionaMelhor (candidatos : List (Nat × Nat)) : Option (Nat × Nat) :=
  candidatos.foldl (fun inc p => atualizaIncumbente inc p.1 p.2) none

/-- One complete trial of `multi_start_pipeline` (lines 315-328):
construction, VND, segment relocation; any in-engine exception
propagates. -/
def tentativaPipeline (servicos : List Servico) (deposito : Nat) (m : Mat)
    (capacidade : Int) (servicos_obrigatorios : List Servico)
    (k fuel : Nat) (escolhas : List Nat) :
    Except String (List (List Servico) × List Int) := do
  let c ← clarke_wright_grasp servicos deposito m capacidade k escolhas
  let v := vnd capacidade m deposito fuel c.1 c.2
  segment_relocate capacidade m deposito fuel v.1 v.2 servicos_obrigatorios

/-- Mutable state of the multi-start loop: best `(custo, num_rotas)` pair
(`none` = both still `float('inf')`), best routes and demands, and the
clock at which the incumbent was found. -/
structure EstadoMS where
  melhor : Option (Nat × Nat)
  melhor_rotas : Option (List (List Servico))
  melhor_demandas : Option (List Int)
  melhor_clock : Option Int
deriving Repr

/-- The trial loop of `multi_start_pipeline` (lines 310-349).  `rng` maps a
seed to the choice oracle of that trial (`random.seed(12345 + tentativa)`
makes each trial's randomness a pure function of `12345 + t`), and
`relogios` is the wall-clock oracle (`time.perf_counter_ns` at the start of
trial `t`).  A trial failing the permissive coverage validation is skipped;
an engine exception propagates. -/
def msLoop (servicos : List Servico) (deposito : Nat) (m : Mat)
    (capacidade : Int) (servicos_obrigatorios : List Servico)
    (k fuel : Nat) (rng : Nat → List Nat) (relogios : Nat → Int) :
    List Nat → EstadoMS → Except String EstadoMS
  | [], st => Except.ok st
  | t :: ts, st =>
      match tentativaPipeline servicos deposito m capacidade
        servicos_obrigatorios k fuel (rng (12345 + t)) with
      | Except.error e => Except.error e
      | Except.ok r =>
          let clock_tentativa := relogios t
          let custo := (r.1.map (rota_custo m deposito)).sum
          let num := r.1.length
          let ids := idsNasRotas r.1
          if idsSetEq (servicos_obrigatorios.map (fun s => s.id_servico))
              ids && decide ids.Nodup then
            if aceitaCandidato st.melhor custo num then
              msLoop servicos deposito m capacidade servicos_obrigatorios
                k fuel rng relogios ts
                ⟨some (custo, num), some r.1, some r.2,
                  some clock_tentativa⟩
            else
              msLoop servicos deposito m capacidade servicos_obrigatorios
                k fuel rng relogios ts st
          else
            msLoop servicos deposito m capacidade servicos_obrigatorios
              k fuel rng relogios ts st

/-- `multi_start_pipeline` from `etapa3/algoritmo_construtivo.py`
(lines 268-366), on the `freq_hz = None` branch: returns the best routes,
their demand list, and the two timing figures in nanoseconds.  The clock
inputs (`relogios`, `clock_inicio`, `clock_fim`) are oracles for the
`time.perf_counter_ns` calls. -/
def multi_start_pipeline (servicos : List Servico) (deposito : Nat)
    (m : Mat) (capacidade : Int) (servicos_obrigatorios : List Servico)
    (k_grasp num_tentativas fuel : Nat) (rng : Nat → List Nat)
    (relogios : Nat → Int) (clock_inicio clock_fim : Int) :
    Except String
      (Option (List (List Servico)) × Option (List Int) × Int × Int) :=
  match msLoop servicos deposito m capacidade servicos_obrigatorios
    k_grasp fuel rng relogios (List.range num_tentativas)
    ⟨none, none, none, none⟩ with
  | Except.error e => Except.error e
  | Except.ok st =>
      let clock_total := clock_fim - clock_inicio
      let melhor_clock :=
        match st.melhor_clock with
        | some c => c - clock_inicio
        | none => (-1 : Int)
      Except.ok (st.melhor_rotas, st.melhor_demandas, clock_total,
        melhor_clock)

/-- The first-occurrence deduplication performed by `salvar_solucao`
(both the `servicos_unicos` dict and the `servicos_impressos` set, lines
487-524): keep each service whose id has not been seen yet, in order. -/
def servicosUnicos : List Servico → List Nat → List Servico
  | [], _ => []
  | s :: resto, vistos =>
      if s.id_servico ∈ vistos then servicosUnicos resto vistos
      else s :: servicosUnicos resto (vistos ++ [s.id_servico])

/-- The data printed on one route line by `salvar_solucao`
(`etapa3/algoritmo_construtivo.py`, lines 483-526): route demand, route
cost, visit count `2 + len(servicos_unicos)`, and the `(S id,origem,
destino)` triples, all computed over the first occurrence of each id. -/
structure LinhaRota where
  demanda : Int
  custo : Nat
  visitas : Nat
  impressos : List (Nat × Nat × Nat)
deriving Repr, DecidableEq

/-- Per-route body of the serializer loop of `salvar_solucao`. -/
def linhaRota (m : Mat) (deposito : Nat) (rota : List Servico) : LinhaRota :=
  let unicos := servicosUnicos rota []
  let destinos := unicos.map (fun s => s.destino)
  let custo_transporte :=
    match destinos with
    | [] => 0
    | d :: ds => m deposito d + percorre m deposito d ds
  { demanda := (unicos.map (fun s => s.demanda)).sum
    custo := (unicos.map (fun s => s.custo_servico)).sum + custo_transporte
    visitas := 2 + unicos.length
    impressos := unicos.map (fun s => (s.id_servico, s.origem, s.destino)) }

/-! ## Concrete instances used by the counterexamples and witnesses -/

/-- Edge service with demand 4 served at vertex 1 (instance of spec §8's
concrete scenario: demands `[3,4,5]`, capacity 8). -/
def sA : Servico := ⟨0, 1, 1, 4, 0⟩

/-- Edge service with demand 3 served at vertex 2. -/
def sB : Servico := ⟨1, 2, 2, 3, 0⟩

/-- Edge service with demand 5 served at vertex 3. -/
def sC : Servico := ⟨2, 3, 3, 5, 0⟩

/-- The three-service catalog of the concrete scenario. -/
def servicosEx : List Servico := [sA, sB, sC]

/-- Symmetric distance oracle over vertices `{0,1,2,3}` (depot `0`). -/
def mEx : Mat := fun a b =>
  match a, b with
  | 0, 1 | 1, 0 => 1
  | 0, 2 | 2, 0 => 1
  | 0, 3 | 3, 0 => 5
  | 1, 2 | 2, 1 => 10
  | 1, 3 | 3, 1 => 1
  | 2, 3 | 3, 2 => 10
  | _, _ => 0

/-- Choice oracle of the concrete construction run: first iteration picks
the third of the three available savings (the pair `(0, 1)`), the later
iterations pick the head of the remaining pool. -/
def escolhasEx : List Nat := [2, 0, 0]

/-- The concrete construction run of the scenario:
`clarke_wright_grasp` on `servicosEx`, depot 0, capacity 8, pool size 3. -/
def construcaoEx : Option (List (List Servico) × List Int) :=
  (clarke_wright_grasp servicosEx 0 mEx 8 3 escolhasEx).toOption

/-- The relocate stage run on the construction output of the scenario. -/
def relocateEx : List (List Servico) × List Int :=
  relocate 8 mEx 0 16 (construcaoEx.getD ([], [])).1
    (construcaoEx.getD ([], [])).2

/-- True demand of a route: the sum of its member services' demands. -/
def demandaVerdadeira (rota : List Servico) : Int :=
  (rota.map (fun s => s.demanda)).sum

/-- Single edge-kind service used by the C1 counterexample: origin 1,
destination 2, so the depot → origin and depot → destination legs differ. -/
def sC1 : Servico := ⟨7, 1, 2, 1, 3⟩

/-- Distance oracle of the C1 counterexample:
`dist(0,1) = 5 ≠ 7 = dist(0,2)`. -/
def mC1 : Mat := fun a b =>
  match a, b with
  | 0, 1 => 5
  | 0, 2 => 7
  | 2, 0 => 4
  | _, _ => 0

/-- Five services (ids 10-14) whose destinations are the vertices 1-5,
used by the `two_opt` counterexample. -/
def rotaCinco : List Servico :=
  [⟨10, 1, 1, 1, 0⟩, ⟨11, 2, 2, 1, 0⟩, ⟨12, 3, 3, 1, 0⟩,
   ⟨13, 4, 4, 1, 0⟩, ⟨14, 5, 5, 1, 0⟩]

/-- Asymmetric distance oracle of the `two_opt` counterexample: all legs
cost 10 except the listed ones. -/
def mCinco : Mat := fun a b =>
  match a, b with
  | 4, 3 => 5
  | 3, 5 => 5
  | 1, 4 => 5
  | 2, 5 => 20
  | 4, 2 => 1
  | _, _ => 10

/-- Service whose demand 10 exceeds the capacity 5 of the C8
counterexample. -/
def sGrande : Servico := ⟨3, 1, 1, 10, 0⟩

/-- Whether an `Except` result is the error (raised-exception) case. -/
def ehErro {α : Type} : Except String α → Bool
  | Except.error _ => true
  | Except.ok _ => false

/-- The multiset of services held across all routes of a solution. -/
def multisetRotas (rotas : List (List Servico)) : Multiset Servico :=
  (rotas.map (fun r => (r : Multiset Servico))).sum

/-- The multiset of service ids across all routes of a solution. -/
def multisetIds (rotas : List (List Servico)) : Multiset Nat :=
  Multiset.map (fun s => s.id_servico) (multisetRotas rotas)

/-- The accepted incumbent of the one-trial multi-start run on the
concrete scenario (the engine's accepted Solution). -/
def incumbenteEx : Option (List (List Servico)) :=
  match (multi_start_pipeline servicosEx 0 mEx 8 servicosEx 3 1 16
      (fun _ => escolhasEx) (fun _ => 0) 0 0).toOption with
  | some r => r.1
  | none => none

/-! ## Helper lemmas -/

theorem percorre_eq_zip (m : Mat) (deposito : Nat) (ds : List Nat) :
    ∀ a, percorre m deposito a ds
      = (((a :: ds).zip (ds ++ [deposito])).map (fun p => m p.1 p.2)).sum := by
  induction ds with
  | nil => intro a; simp [percorre]
  | cons d ds ih => intro a; simp [percorre, ih d]

/-! ## Claim theorems -/

/-- C1 (counterexample): the engine's route cost does NOT use the
depot → first ORIGIN and destination → next ORIGIN legs the claim
describes.  On the single-service route `[sC1]` (origin 1, destination 2)
the engine charges `3 + dist(0,2) + dist(2,0) = 14` while the claimed
formula gives `3 + dist(0,1) + dist(2,0) = 12`. -/
theorem custo_rota_contraexemplo :
    rota_custo mC1 0 [sC1] = 14 ∧ custo_rota_especificado mC1 0 [sC1] = 12
      ∧ rota_custo mC1 0 [sC1] ≠ custo_rota_especificado mC1 0 [sC1] := by
  decide

/-- C1 (amended): for every non-empty route, the engine's route cost is
the sum of the member services' service costs plus the transport cost over
the services' DESTINATION vertices only: the sum of the distance-oracle
lookups along the vertex sequence depot, first destination, ...,
last destination, depot. -/
theorem custo_rota_por_destinos (m : Mat) (deposito : Nat)
    (rota : List Servico) (h : rota ≠ []) :
    rota_custo m deposito rota = custo_rota_destinos m deposito rota := by
  match rota with
  | [] => exact absurd rfl h
  | s :: resto =>
      simp [rota_custo, custo_rota_destinos, percorre_eq_zip]

/-- Witness for C1's amended theorem at the concrete route `[sC1]`. -/
theorem custo_rota_por_destinos_witness :
    rota_custo mC1 0 [sC1] = custo_rota_destinos mC1 0 [sC1] :=
  custo_rota_por_destinos mC1 0 [sC1] (by decide)

/-- C2 (code bug, evaluated at the failing input): the construction stage
of the concrete scenario merges services 0 and 1 (choice oracle
`[2, 0, 0]`), leaving routes `[[sA,sB], [], [sC]]` with demands
`[7, 0, 5]`; the pruning comprehensions (lines 147-148) filter `rotas`
FIRST and then zip the filtered list with the old demands, returning
routes `[[sA,sB], [sC]]` with demand list `[7, 0]` — the entry for route
`[sC]` is 0 while the route's true demand is 5, so the parallel demand
list is out of sync right after the construction stage, contradicting the
code's own comment `Remove rotas vazias e sincroniza demandas`. -/
theorem poda_dessincroniza_demandas :
    construcaoEx = some ([[sA, sB], [sC]], [7, 0])
    ∧ (construcaoEx.getD ([], [])).2.getD 1 0 = 0
    ∧ demandaVerdadeira ((construcaoEx.getD ([], [])).1.getD 1 []) = 5 := by
  decide

/-- C3 (code bug, evaluated at the failing input): starting from the
desynchronised construction state `([[sA,sB],[sC]], [7,0])` of the
concrete scenario (capacity 8), `relocate` checks `demandas[1] + 4 ≤ 8`
against the stale bookkeeping value 0 and moves service `sA` (demand 4)
into the route of `sC` (true demand 5), producing the accepted state
`[[sB],[sC,sA]]` whose second route carries demand 9 > 8; the scan then
reaches its fixed point and the one-trial multi-start driver accepts this
solution as its incumbent (its validation checks only coverage).  This is
exactly the placement of demands 4 and 5 together that spec §8 forbids. -/
theorem relocate_viola_capacidade :
    relocateEx = ([[sB], [sC, sA]], [3, 4])
    ∧ relocateAcha 8 mEx 0 relocateEx.1 relocateEx.2 = none
    ∧ incumbenteEx = some [[sB], [sC, sA]]
    ∧ demandaVerdadeira [sC, sA] = 9
    ∧ ¬ (∀ rota ∈ [[sB], [sC, sA]], demandaVerdadeira rota ≤ 8) := by
  decide

/-- C6: the incumbent-selection rule of the multi-start driver.  A
candidate replaces a finite incumbent `(mc, mn)` iff its cost is strictly
lower, or the costs are exactly equal and its route count is strictly
lower; the empty (infinite) incumbent is always replaced; an exact tie on
both cost and route count keeps the incumbent; and on the spec's two
example candidate sequences the `(100, 2)` and `(90, 5)` candidates win. -/
theorem selecao_incumbente_caracterizacao :
    (∀ mc mn c n, aceitaCandidato (some (mc, mn)) c n = true
        ↔ (c < mc ∨ (c = mc ∧ n < mn)))
    ∧ (∀ c n, aceitaCandidato none c n = true)
    ∧ (∀ mc mn, aceitaCandidato (some (mc, mn)) mc mn = false)
    ∧ selecionaMelhor [(100, 3), (100, 2)] = some (100, 2)
    ∧ selecionaMelhor [(90, 5), (100, 2)] = some (90, 5) := by
  refine ⟨?_, ?_, ?_, by decide, by decide⟩
  · intro mc mn c n
    simp [aceitaCandidato]
  · intro c n
    rfl
  · intro mc mn
    simp [aceitaCandidato]

theorem construirE2Aux_erro (capacidade : Int) :
    ∀ (servicos : List Servico) (rotas : List (List Servico))
      (demandas : List Int),
      ehErro (construirRotasIniciaisE2Aux capacidade servicos rotas demandas)
          = true
        ↔ ∃ s ∈ servicos, s.demanda > capacidade := by
  intro servicos
  induction servicos with
  | nil =>
      intro rotas demandas
      simp [construirRotasIniciaisE2Aux, ehErro]
  | cons s resto ih =>
      intro rotas demandas
      by_cases h : s.demanda > capacidade
      · simp [construirRotasIniciaisE2Aux, h, ehErro]
      · simp [construirRotasIniciaisE2Aux, h, ih]

/-- C8 (amended): the demand-exceeds-capacity guard lives only in the
simplified etapa2 constructor: `construir_rotas_iniciais` of
`etapa2/algoritmo_construtivo.py` raises (returns an error) exactly when
some service's demand exceeds the vehicle capacity. -/
theorem guarda_demanda_etapa2 (servicos : List Servico) (capacidade : Int) :
    ehErro (construirRotasIniciaisE2 servicos capacidade) = true
      ↔ ∃ s ∈ servicos, s.demanda > capacidade :=
  construirE2Aux_erro capacidade servicos [] []

/-- C8 (counterexample): the construction path used by the engine —
`clarke_wright_grasp`, which calls the UNGUARDED etapa3
`construir_rotas_iniciais` — does NOT signal any error for a service of
demand 10 under capacity 5: it returns the singleton route normally.  The
etapa2 constructor would have raised on the same input. -/
theorem construtor_engine_sem_guarda :
    sGrande.demanda > 5
    ∧ (clarke_wright_grasp [sGrande] 0 mEx 5 3 []).toOption
        = some ([[sGrande]], [10])
    ∧ ehErro (construirRotasIniciaisE2 [sGrande] 5) = true := by
  decide

theorem foldl_reversoes_custo_le (m : Mat) (deposito : Nat)
    (ps : List (Nat × Nat)) :
    ∀ acc, rota_custo m deposito (ps.foldl (fun melhor p =>
        let nova := reverteSegmento melhor p.1 p.2
        if rota_custo m deposito nova < rota_custo m deposito melhor then
          nova
        else melhor) acc) ≤ rota_custo m deposito acc := by
  induction ps with
  | nil => intro acc; simp
  | cons p ps ih =>
      intro acc
      simp only [List.foldl_cons]
      refine le_trans (ih _) ?_
      by_cases h : rota_custo m deposito (reverteSegmento acc p.1 p.2)
          < rota_custo m deposito acc
      · simp only [h, if_true]
        exact le_of_lt h
      · simp only [h, if_false]
        exact le_refl _

/-- C5 (counterexample): `two_opt` does NOT return at a fixed point of the
reversal neighbourhood.  On the 5-service route `rotaCinco` (length 5 ≥ 3)
the single pass accepts the reversal at `(2, 4)` and returns a route of
cost 50, yet the reversal at the scanned pair `(1, 3)` of the RETURNED
route still strictly reduces its cost (to 41): a full scan over the
position pairs of the result would find an improving reversal, so the
operator terminated without reaching a fixed point. -/
theorem two_opt_sem_ponto_fixo :
    3 ≤ rotaCinco.length
    ∧ (1, 3) ∈ paresDuasOpt (two_opt mCinco 0 rotaCinco).length
    ∧ rota_custo mCinco 0 (two_opt mCinco 0 rotaCinco) = 50
    ∧ rota_custo mCinco 0
          (reverteSegmento (two_opt mCinco 0 rotaCinco) 1 3)
        < rota_custo mCinco 0 (two_opt mCinco 0 rotaCinco) := by
  decide

/-- C5 (amended): `two_opt`, applied to a route of length ≥ 3, performs a
SINGLE scan over the position pairs `1 ≤ i < j ≤ len-1`, replacing the
current route by a tested reversal exactly when it strictly reduces that
route's own cost and continuing the scan (it neither restarts the scan nor
iterates to a fixed point, as the `if melhorou: break` exits the while
loop after the first pass).  Consequently the returned route's cost never
exceeds the input route's cost — proved here for every input route. -/
theorem two_opt_nao_aumenta_custo (m : Mat) (deposito : Nat)
    (rota : List Servico) :
    rota_custo m deposito (two_opt m deposito rota)
      ≤ rota_custo m deposito rota := by
  unfold two_opt
  by_cases h : rota.length < 3
  · simp [h]
  · simp only [h, if_false]
    exact foldl_reversoes_custo_le m deposito (paresDuasOpt rota.length) rota

theorem reverteSegmento_head (rota : List Servico) (i j : Nat)
    (h : 1 ≤ i) (hne : rota ≠ []) :
    (reverteSegmento rota i j).head? = rota.head?
      ∧ reverteSegmento rota i j ≠ [] := by
  match rota, i with
  | a :: as, n + 1 =>
      simp [reverteSegmento, List.take_cons]

theorem foldl_reversoes_head (m : Mat) (deposito : Nat)
    (ps : List (Nat × Nat)) :
    ∀ acc, (∀ p ∈ ps, 1 ≤ p.1) → acc ≠ [] →
      (ps.foldl (fun melhor p =>
        let nova := reverteSegmento melhor p.1 p.2
        if rota_custo m deposito nova < rota_custo m deposito melhor then
          nova
        else melhor) acc).head? = acc.head?
      ∧ ps.foldl (fun melhor p =>
        let nova := reverteSegmento melhor p.1 p.2
        if rota_custo m deposito nova < rota_custo m deposito melhor then
          nova
        else melhor) acc ≠ [] := by
  induction ps with
  | nil => intro acc _ hne; exact ⟨rfl, hne⟩
  | cons p ps ih =>
      intro acc hpos hne
      simp only [List.foldl_cons]
      have hp : 1 ≤ p.1 := hpos p (List.mem_cons_self p ps)
      have hrev := reverteSegmento_head acc p.1 p.2 hp hne
      by_cases h : rota_custo m deposito (reverteSegmento acc p.1 p.2)
          < rota_custo m deposito acc
      · simp only [h, if_true]
        have := ih (reverteSegmento acc p.1 p.2)
          (fun q hq => hpos q (List.mem_cons_of_mem p hq)) hrev.2
        exact ⟨this.1.trans hrev.1, this.2⟩
      · simp only [h, if_false]
        exact ih acc (fun q hq => hpos q (List.mem_cons_of_mem p hq)) hne

theorem paresDuasOpt_fst_pos (n : Nat) :
    ∀ p ∈ paresDuasOpt n, 1 ≤ p.1 := by
  intro p hp
  unfold paresDuasOpt at hp
  simp only [List.mem_flatMap, List.mem_map] at hp
  obtain ⟨i, hi, j, _, rfl⟩ := hp
  have := List.mem_range'_1.mp hi
  exact this.1

/-- C10: `two_opt` never moves the first service of a route: for every
input route, the head of the returned route equals the head of the input
(the scanned reversals all start at position `i ≥ 1`, so position 0 is
always inside the untouched prefix). -/
theorem two_opt_preserva_primeiro (m : Mat) (deposito : Nat)
    (rota : List Servico) :
    (two_opt m deposito rota).head? = rota.head? := by
  unfold two_opt
  by_cases h : rota.length < 3
  · simp [h]
  · simp only [h, if_false]
    have hne : rota ≠ [] := by
      intro hnil
      rw [hnil] at h
      exact h (by decide)
    exact (foldl_reversoes_head m deposito (paresDuasOpt rota.length) rota
      (paresDuasOpt_fst_pos rota.length) hne).1

theorem servicosUnicos_ids (rota : List Servico) :
    ∀ vistos : List Nat,
      ((servicosUnicos rota vistos).map (fun s => s.id_servico)).Nodup
      ∧ ∀ i, (i ∈ (servicosUnicos rota vistos).map (fun s => s.id_servico)
          ↔ (i ∈ rota.map (fun s => s.id_servico) ∧ i ∉ vistos)) := by
  induction rota with
  | nil => intro vistos; simp [servicosUnicos]
  | cons s resto ih =>
      intro vistos
      by_cases h : s.id_servico ∈ vistos
      · simp only [servicosUnicos, if_pos h]
        obtain ⟨hn, hm⟩ := ih vistos
        refine ⟨hn, fun i => ?_⟩
        rw [hm i]
        simp only [List.map_cons, List.mem_cons]
        constructor
        · exact fun hi => ⟨Or.inr hi.1, hi.2⟩
        · rintro ⟨hi | hi, hv⟩
          · exact absurd (hi ▸ h) hv
          · exact ⟨hi, hv⟩
      · simp only [servicosUnicos, if_neg h]
        obtain ⟨hn, hm⟩ := ih (vistos ++ [s.id_servico])
        have hself : s.id_servico
            ∉ (servicosUnicos resto (vistos ++ [s.id_servico])).map
              (fun t => t.id_servico) := by
          intro hmem
          have := (hm s.id_servico).mp hmem
          exact this.2 (by simp)
        refine ⟨List.nodup_cons.mpr ⟨hself, hn⟩, fun i => ?_⟩
        simp only [List.map_cons, List.mem_cons, hm i, List.mem_append,
          List.mem_singleton]
        constructor
        · rintro (rfl | ⟨hi, hv⟩)
          · exact ⟨Or.inl rfl, h⟩
          · exact ⟨Or.inr hi, fun hvv => hv (Or.inl hvv)⟩
        · rintro ⟨rfl | hi, hv⟩
          · exact Or.inl rfl
          · by_cases hs : i = s.id_servico
            · exact Or.inl hs
            · exact Or.inr ⟨hi, by
                rintro (hvv | hvv | hvv)
                · exact hv hvv
                · exact hs hvv
                · exact absurd hvv (List.not_mem_nil i)⟩

theorem servicosUnicos_toFinset (rota : List Servico) (vistos : List Nat) :
    ((servicosUnicos rota vistos).map (fun s => s.id_servico)).toFinset
      = (rota.map (fun s => s.id_servico)).toFinset \ vistos.toFinset := by
  ext i
  simp [(servicosUnicos_ids rota vistos).2 i]

/-- C9: the `salvar_solucao` route line prints each mandatory service of
the route exactly once even when the internal representation repeats a
service id — the printed id list has no duplicates, contains the id of
every member service, and contains only ids of member services — and the
printed `visitCount` equals 2 (the two depot visits) plus the number of
distinct services in the route. -/
theorem linha_rota_imprime_unicos (m : Mat) (deposito : Nat)
    (rota : List Servico) :
    ((linhaRota m deposito rota).impressos.map (fun t => t.1)).Nodup
    ∧ (∀ s ∈ rota, s.id_servico
        ∈ (linhaRota m deposito rota).impressos.map (fun t => t.1))
    ∧ (∀ i ∈ (linhaRota m deposito rota).impressos.map (fun t => t.1),
        i ∈ rota.map (fun s => s.id_servico))
    ∧ (linhaRota m deposito rota).visitas
        = 2 + (rota.map (fun s => s.id_servico)).toFinset.card := by
  have hmapa : (linhaRota m deposito rota).impressos.map (fun t => t.1)
      = (servicosUnicos rota []).map (fun s => s.id_servico) := by
    simp [linhaRota, List.map_map]
  obtain ⟨hn, hm⟩ := servicosUnicos_ids rota ([] : List Nat)
  refine ⟨hmapa ▸ hn, ?_, ?_, ?_⟩
  · intro s hs
    rw [hmapa, hm s.id_servico]
    exact ⟨List.mem_map_of_mem (fun t => t.id_servico) hs, by simp⟩
  · intro i hi
    rw [hmapa] at hi
    exact ((hm i).mp hi).1
  · have hlen : (servicosUnicos rota []).length
        = (rota.map (fun s => s.id_servico)).toFinset.card := by
      have h1 : ((servicosUnicos rota []).map
          (fun s => s.id_servico)).toFinset.card
            = ((servicosUnicos rota []).map (fun s => s.id_servico)).length :=
        List.toFinset_card_of_nodup hn
      rw [servicosUnicos_toFinset rota [], List.length_map] at h1
      simpa using h1.symm
    simp [linhaRota, hlen]

theorem multisetRotas_cons (r : List Servico) (rs : List (List Servico)) :
    multisetRotas (r :: rs) = (r : Multiset Servico) + multisetRotas rs := by
  simp [multisetRotas]

theorem getD_set_ne (a : List Servico) :
    ∀ (l : List (List Servico)) (i j : Nat), i ≠ j →
      (l.set i a).getD j [] = l.getD j [] := by
  intro l
  induction l with
  | nil => intro i j _; simp
  | cons x xs ih =>
      intro i j hne
      match i, j with
      | 0, 0 => exact absurd rfl hne
      | 0, n + 1 => simp
      | m + 1, 0 => simp
      | m + 1, n + 1 =>
          simp only [List.set_cons_succ, List.getD_cons_succ]
          exact ih m n (fun h => hne (by rw [h]))

theorem multisetRotas_set (a : List Servico) :
    ∀ (l : List (List Servico)) (i : Nat), i < l.length →
      multisetRotas (l.set i a) + (l.getD i [] : Multiset Servico)
        = multisetRotas l + (a : Multiset Servico) := by
  intro l
  induction l with
  | nil => intro i h; simp at h
  | cons x xs ih =>
      intro i h
      match i with
      | 0 =>
          simp only [List.set_cons_zero, List.getD_cons_zero,
            multisetRotas_cons]
          abel
      | n + 1 =>
          simp only [List.set_cons_succ, List.getD_cons_succ,
            multisetRotas_cons]
          have := ih n (by simpa using h)
          rw [add_assoc, this, ← add_assoc]

theorem multisetRotas_set2 (l : List (List Servico)) (i j : Nat)
    (a b : List Servico) (hi : i < l.length) (hj : j < l.length)
    (hne : i ≠ j)
    (h : (a : Multiset Servico) + (b : Multiset Servico)
      = (l.getD i [] : Multiset Servico) + (l.getD j [] : Multiset Servico)) :
    multisetRotas ((l.set i a).set j b) = multisetRotas l := by
  have h1 := multisetRotas_set a l i hi
  have h2 := multisetRotas_set b (l.set i a) j (by simpa using hj)
  rw [getD_set_ne a l i j hne] at h2
  have h3 : multisetRotas ((l.set i a).set j b)
        + ((l.getD j [] : Multiset Servico)
            + (l.getD i [] : Multiset Servico))
      = multisetRotas l
        + ((l.getD j [] : Multiset Servico)
            + (l.getD i [] : Multiset Servico)) := by
    calc multisetRotas ((l.set i a).set j b)
          + ((l.getD j [] : Multiset Servico)
              + (l.getD i [] : Multiset Servico))
        = (multisetRotas ((l.set i a).set j b)
            + (l.getD j [] : Multiset Servico))
            + (l.getD i [] : Multiset Servico) := by rw [add_assoc]
      _ = (multisetRotas (l.set i a) + (b : Multiset Servico))
            + (l.getD i [] : Multiset Servico) := by rw [h2]
      _ = (multisetRotas (l.set i a) + (l.getD i [] : Multiset Servico))
            + (b : Multiset Servico) := by
            rw [add_assoc, add_comm ((b : Multiset Servico)), ← add_assoc]
      _ = (multisetRotas l + (a : Multiset Servico))
            + (b : Multiset Servico) := by rw [h1]
      _ = multisetRotas l
            + ((l.getD i [] : Multiset Servico)
                + (l.getD j [] : Multiset Servico)) := by
            rw [add_assoc, h]
      _ = multisetRotas l
            + ((l.getD j [] : Multiset Servico)
                + (l.getD i [] : Multiset Servico)) := by
            rw [add_comm ((l.getD i [] : Multiset Servico))]
  exact add_right_cancel h3

theorem eraseIdx_multiset (r : List Servico) :
    ∀ idx, idx < r.length →
      ((r.take idx ++ r.drop (idx + 1) : List Servico) : Multiset Servico)
          + {r.getD idx default}
        = (r : Multiset Servico) := by
  induction r with
  | nil => intro idx h; simp at h
  | cons x xs ih =>
      intro idx h
      match idx with
      | 0 =>
          simp only [List.take_nil, List.take_zero, List.nil_append,
            List.drop_succ_cons, List.drop_zero, List.getD_cons_zero]
          rw [add_comm, Multiset.singleton_add, Multiset.cons_coe]
      | n + 1 =>
          have hxs := ih n (by simpa using h)
          simp only [List.take_succ_cons, List.drop_succ_cons,
            List.getElem?_cons_succ, List.cons_append,
            List.getD_eq_getElem?_getD]
          simp only [List.getD_eq_getElem?_getD] at hxs
          rw [← Multiset.cons_coe, ← Multiset.cons_coe, Multiset.cons_add,
            hxs]

theorem bloco_multiset (r : List Servico) (start fim : Nat)
    (h : start ≤ fim) :
    ((r.take start ++ r.drop fim : List Servico) : Multiset Servico)
        + (((r.drop start).take (fim - start) : List Servico)
            : Multiset Servico)
      = (r : Multiset Servico) := by
  have h3 : (r.drop start).drop (fim - start) = r.drop fim := by
    rw [List.drop_drop]
    congr 1
    omega
  have h2 : (((r.drop start).take (fim - start) : List Servico)
        : Multiset Servico)
      + ((r.drop fim : List Servico) : Multiset Servico)
      = ((r.drop start : List Servico) : Multiset Servico) := by
    rw [← h3, Multiset.coe_add, List.take_append_drop]
  have h1 : ((r.take start : List Servico) : Multiset Servico)
      + ((r.drop start : List Servico) : Multiset Servico)
      = (r : Multiset Servico) := by
    rw [Multiset.coe_add, List.take_append_drop]
  rw [← h1, ← h2, ← Multiset.coe_add]
  abel

theorem reverteSegmento_multiset (r : List Servico) (i j : Nat)
    (h : i ≤ j) :
    ((reverteSegmento r i j : List Servico) : Multiset Servico)
      = (r : Multiset Servico) := by
  unfold reverteSegmento
  have hside := bloco_multiset r i j h
  rw [← Multiset.coe_add, ← Multiset.coe_add, Multiset.coe_reverse,
    ← hside, ← Multiset.coe_add]
  abel

theorem multisetRotas_filter (rotas : List (List Servico)) :
    multisetRotas (rotas.filter (fun r => decide (r ≠ [])))
      = multisetRotas rotas := by
  induction rotas with
  | nil => rfl
  | cons r rs ih =>
      rw [List.filter_cons]
      by_cases h : r = []
      · subst h
        rw [if_neg (by simp), ih, multisetRotas_cons]
        simp
      · rw [if_pos (by simp [h]), multisetRotas_cons, multisetRotas_cons, ih]

theorem foldl_opt_mem (p : List Servico → Bool) (rotas : List (List Servico)) :
    ∀ (l : List Nat) (acc : Option Nat) (a : Nat),
      l.foldl (fun acc idx =>
        if p (rotas.getD idx []) then some idx else acc) acc = some a →
      acc = some a ∨ a ∈ l := by
  intro l
  induction l with
  | nil => intro acc a h; exact Or.inl h
  | cons x xs ih =>
      intro acc a h
      simp only [List.foldl_cons] at h
      rcases ih _ a h with h1 | h1
      · by_cases hp : p (rotas.getD x [])
        · rw [if_pos hp] at h1
          exact Or.inr (by simp [← Option.some_inj.mp h1])
        · rw [if_neg hp] at h1
          exact Or.inl h1
      · exact Or.inr (List.mem_cons_of_mem x h1)

theorem ultimoIndice_lt (rotas : List (List Servico))
    (p : List Servico → Bool) (a : Nat)
    (h : ultimoIndice rotas p = some a) : a < rotas.length := by
  unfold ultimoIndice at h
  rcases foldl_opt_mem p rotas _ none a h with h1 | h1
  · exact absurd h1 (by simp)
  · exact List.mem_range.mp h1

theorem relocateAcha_spec (capacidade : Int) (m : Mat) (deposito : Nat)
    (rotas : List (List Servico)) (demandas : List Int) (i j idx : Nat)
    (h : relocateAcha capacidade m deposito rotas demandas
      = some (i, j, idx)) :
    i < rotas.length ∧ j < rotas.length ∧ i ≠ j
      ∧ idx < (rotas.getD i []).length := by
  unfold relocateAcha at h
  obtain ⟨a, ha, h2⟩ := List.exists_of_findSome?_eq_some h
  obtain ⟨b, hb, h3⟩ := List.exists_of_findSome?_eq_some h2
  obtain ⟨c, hc, h4⟩ := List.exists_of_findSome?_eq_some h3
  split at h4
  case isTrue hcond =>
    have h6 : a = i ∧ b = j ∧ c = idx := by
      simpa [Prod.ext_iff] using h4
    rw [← h6.1, ← h6.2.1, ← h6.2.2]
    have hne : a ≠ b := by
      simp only [relocateAceita, Bool.and_eq_true, decide_eq_true_eq]
        at hcond
      exact hcond.1.1.1
    exact ⟨List.mem_range.mp ha, List.mem_range.mp hb, hne,
      List.mem_range.mp hc⟩
  case isFalse => exact absurd h4 (by simp)

theorem relocateAplica_multiset (capacidade : Int) (m : Mat)
    (deposito : Nat) (rotas : List (List Servico)) (demandas : List Int)
    (i j idx : Nat)
    (h : relocateAcha capacidade m deposito rotas demandas
      = some (i, j, idx)) :
    multisetRotas (relocateAplica rotas demandas i j idx).1
      = multisetRotas rotas := by
  obtain ⟨hi, hj, hne, hidx⟩ :=
    relocateAcha_spec capacidade m deposito rotas demandas i j idx h
  have he := eraseIdx_multiset (rotas.getD i []) idx hidx
  unfold relocateAplica relocateNovas
  apply multisetRotas_set2 _ i j _ _ hi hj hne
  rw [← he]
  simp only [← Multiset.coe_add, Multiset.coe_singleton]
  abel

theorem srAcha_spec (capacidade : Int) (m : Mat) (deposito : Nat)
    (rotas : List (List Servico)) (demandas : List Int)
    (i j start fim : Nat)
    (h : srAcha capacidade m deposito rotas demandas
      = some (i, j, start, fim)) :
    i < rotas.length ∧ j < rotas.length ∧ i ≠ j ∧ start ≤ fim := by
  unfold srAcha at h
  obtain ⟨a, ha, h2⟩ := List.exists_of_findSome?_eq_some h
  obtain ⟨b, hb, h3⟩ := List.exists_of_findSome?_eq_some h2
  obtain ⟨c, hc, h4⟩ := List.exists_of_findSome?_eq_some h3
  obtain ⟨d, hd, h5⟩ := List.exists_of_findSome?_eq_some h4
  split at h5
  case isTrue hcond =>
    have h6 : a = i ∧ b = j ∧ c = start ∧ d = fim := by
      simpa [Prod.ext_iff] using h5
    rw [← h6.1, ← h6.2.1, ← h6.2.2.1, ← h6.2.2.2]
    have hne : a ≠ b := by
      simp only [srAceita, Bool.and_eq_true, decide_eq_true_eq] at hcond
      exact hcond.1.1.1.1.1.1
    have hle : c ≤ d := by
      have := (List.mem_range'_1.mp hd).1
      omega
    exact ⟨List.mem_range.mp ha, List.mem_range.mp hb, hne, hle⟩
  case isFalse => exact absurd h5 (by simp)

theorem srAplica_multiset (capacidade : Int) (m : Mat) (deposito : Nat)
    (rotas : List (List Servico)) (demandas : List Int)
    (i j start fim : Nat)
    (h : srAcha capacidade m deposito rotas demandas
      = some (i, j, start, fim)) :
    multisetRotas (srAplica rotas demandas i j start fim).1
      = multisetRotas rotas := by
  obtain ⟨hi, hj, hne, hle⟩ :=
    srAcha_spec capacidade m deposito rotas demandas i j start fim h
  have hb := bloco_multiset (rotas.getD i []) start fim hle
  unfold srAplica srNovas
  apply multisetRotas_set2 _ i j _ _ hi hj hne
  rw [← hb]
  simp only [← Multiset.coe_add]
  abel

theorem cwFunde_multiset (capacidade : Int) (rotas : List (List Servico))
    (demandas : List Int) (oa ob : Option Nat)
    (ha : ∀ x, oa = some x → x < rotas.length)
    (hb : ∀ x, ob = some x → x < rotas.length) :
    multisetRotas (cwFunde capacidade rotas demandas oa ob).1
      = multisetRotas rotas := by
  match oa, ob with
  | none, none => rfl
  | none, some b => rfl
  | some a, none => rfl
  | some a, some b =>
      show multisetRotas
          (if a ≠ b ∧ demandas.getD a 0 + demandas.getD b 0 ≤ capacidade
           then ((rotas.set a (rotas.getD a [] ++ rotas.getD b [])).set b [],
              (demandas.set a
                (demandas.getD a 0 + demandas.getD b 0)).set b 0)
           else (rotas, demandas)).1 = multisetRotas rotas
      by_cases hcond : a ≠ b
          ∧ demandas.getD a 0 + demandas.getD b 0 ≤ capacidade
      · rw [if_pos hcond]
        apply multisetRotas_set2 _ a b _ _ (ha a rfl) (hb b rfl) hcond.1
        simp [← Multiset.coe_add]
      · rw [if_neg hcond]

theorem cwFunde_len (capacidade : Int) (rotas : List (List Servico))
    (demandas : List Int) (oa ob : Option Nat) :
    (cwFunde capacidade rotas demandas oa ob).1.length = rotas.length
      ∧ (cwFunde capacidade rotas demandas oa ob).2.length
        = demandas.length := by
  match oa, ob with
  | none, none => exact ⟨rfl, rfl⟩
  | none, some b => exact ⟨rfl, rfl⟩
  | some a, none => exact ⟨rfl, rfl⟩
  | some a, some b =>
      show (if a ≠ b ∧ demandas.getD a 0 + demandas.getD b 0 ≤ capacidade
           then ((rotas.set a (rotas.getD a [] ++ rotas.getD b [])).set b [],
              (demandas.set a
                (demandas.getD a 0 + demandas.getD b 0)).set b 0)
           else (rotas, demandas)).1.length = rotas.length
        ∧ (if a ≠ b ∧ demandas.getD a 0 + demandas.getD b 0 ≤ capacidade
           then ((rotas.set a (rotas.getD a [] ++ rotas.getD b [])).set b [],
              (demandas.set a
                (demandas.getD a 0 + demandas.getD b 0)).set b 0)
           else (rotas, demandas)).2.length = demandas.length
      by_cases hcond : a ≠ b
          ∧ demandas.getD a 0 + demandas.getD b 0 ≤ capacidade
      · rw [if_pos hcond]
        simp [List.length_set]
      · rw [if_neg hcond]
        exact ⟨rfl, rfl⟩

theorem cwPasso_multiset (servicos : List Servico) (capacidade : Int)
    (k : Nat) (savs : List Sav) (escolha : Nat)
    (rotas : List (List Servico)) (demandas : List Int) :
    multisetRotas
        (cwPasso servicos capacidade k savs escolha rotas demandas).2.1
      = multisetRotas rotas := by
  apply cwFunde_multiset
  · intro x hx; exact ultimoIndice_lt _ _ _ hx
  · intro x hx; exact ultimoIndice_lt _ _ _ hx

theorem cwPasso_len (servicos : List Servico) (capacidade : Int)
    (k : Nat) (savs : List Sav) (escolha : Nat)
    (rotas : List (List Servico)) (demandas : List Int) :
    (cwPasso servicos capacidade k savs escolha rotas demandas).2.1.length
        = rotas.length
      ∧ (cwPasso servicos capacidade k savs escolha rotas
          demandas).2.2.length = demandas.length :=
  cwFunde_len capacidade rotas demandas _ _

theorem cwLoop_preserva (servicos : List Servico) (capacidade : Int)
    (k : Nat) :
    ∀ (fuel : Nat) (savs : List Sav) (escolhas : List Nat)
      (rotas : List (List Servico)) (demandas : List Int),
      multisetRotas
          (cwLoop servicos capacidade k fuel savs escolhas rotas demandas).1
        = multisetRotas rotas
      ∧ (cwLoop servicos capacidade k fuel savs escolhas rotas
          demandas).1.length = rotas.length
      ∧ (cwLoop servicos capacidade k fuel savs escolhas rotas
          demandas).2.length = demandas.length := by
  intro fuel
  induction fuel with
  | zero =>
      intro savs escolhas rotas demandas
      exact ⟨rfl, rfl, rfl⟩
  | succ n ih =>
      intro savs escolhas rotas demandas
      match savs with
      | [] => exact ⟨rfl, rfl, rfl⟩
      | s :: ss =>
          simp only [cwLoop]
          refine ⟨?_, ?_, ?_⟩
          · exact (ih _ _ _ _).1.trans
              (cwPasso_multiset servicos capacidade k (s :: ss)
                (escolhas.headD 0) rotas demandas)
          · exact (ih _ _ _ _).2.1.trans
              (cwPasso_len servicos capacidade k (s :: ss)
                (escolhas.headD 0) rotas demandas).1
          · exact (ih _ _ _ _).2.2.trans
              (cwPasso_len servicos capacidade k (s :: ss)
                (escolhas.headD 0) rotas demandas).2

theorem multisetRotas_singletons (servicos : List Servico) :
    multisetRotas (servicos.map (fun s => [s]))
      = (servicos : Multiset Servico) := by
  induction servicos with
  | nil => rfl
  | cons s resto ih =>
      simp only [List.map_cons, multisetRotas_cons, ih]
      rw [← Multiset.cons_coe, ← Multiset.singleton_add]
      rfl

theorem podaBuggy_multiset (rotas : List (List Servico))
    (demandas : List Int) :
    multisetRotas (podaBuggy rotas demandas).1 = multisetRotas rotas :=
  multisetRotas_filter rotas

theorem podaBuggy_zip_filter (rotas : List (List Servico))
    (demandas : List Int) :
    ((rotas.filter (fun r => decide (r ≠ []))).zip demandas).filter
        (fun rd => decide (rd.1 ≠ []))
      = (rotas.filter (fun r => decide (r ≠ []))).zip demandas := by
  apply List.filter_eq_self.mpr
  intro rd hrd
  obtain ⟨a, b⟩ := rd
  have := List.of_mem_filter (List.of_mem_zip hrd).1
  simpa using this

theorem podaBuggy_len (rotas : List (List Servico)) (demandas : List Int)
    (h : rotas.length ≤ demandas.length) :
    (podaBuggy rotas demandas).1.length
      = (podaBuggy rotas demandas).2.length := by
  unfold podaBuggy
  simp only [podaBuggy_zip_filter, List.length_map, List.length_zip]
  have := List.length_filter_le (fun r => decide (r ≠ [])) rotas
  omega

theorem relocateAplica_len (rotas : List (List Servico))
    (demandas : List Int) (i j idx : Nat) :
    (relocateAplica rotas demandas i j idx).1.length = rotas.length
      ∧ (relocateAplica rotas demandas i j idx).2.length
        = demandas.length := by
  unfold relocateAplica
  simp [List.length_set]

theorem relocateLoop_preserva (capacidade : Int) (m : Mat)
    (deposito : Nat) :
    ∀ (fuel : Nat) (rotas : List (List Servico)) (demandas : List Int),
      multisetRotas
          (relocateLoop capacidade m deposito fuel rotas demandas).1
        = multisetRotas rotas
      ∧ (relocateLoop capacidade m deposito fuel rotas demandas).1.length
        = rotas.length
      ∧ (relocateLoop capacidade m deposito fuel rotas demandas).2.length
        = demandas.length := by
  intro fuel
  induction fuel with
  | zero =>
      intro rotas demandas
      exact ⟨rfl, rfl, rfl⟩
  | succ n ih =>
      intro rotas demandas
      simp only [relocateLoop]
      cases hm : relocateAcha capacidade m deposito rotas demandas with
      | none => exact ⟨rfl, rfl, rfl⟩
      | some mv =>
          obtain ⟨h1, h2, h3⟩ := ih
            (relocateAplica rotas demandas mv.1 mv.2.1 mv.2.2).1
            (relocateAplica rotas demandas mv.1 mv.2.1 mv.2.2).2
          have hmv : relocateAcha capacidade m deposito rotas demandas
              = some (mv.1, mv.2.1, mv.2.2) := by
            rw [hm]
          refine ⟨?_, ?_, ?_⟩
          · exact h1.trans (relocateAplica_multiset capacidade m deposito
              rotas demandas mv.1 mv.2.1 mv.2.2 hmv)
          · exact h2.trans
              (relocateAplica_len rotas demandas mv.1 mv.2.1 mv.2.2).1
          · exact h3.trans
              (relocateAplica_len rotas demandas mv.1 mv.2.1 mv.2.2).2

theorem relocate_multiset (capacidade : Int) (m : Mat) (deposito : Nat)
    (fuel : Nat) (rotas : List (List Servico)) (demandas : List Int) :
    multisetRotas (relocate capacidade m deposito fuel rotas demandas).1
      = multisetRotas rotas := by
  unfold relocate
  exact (podaBuggy_multiset _ _).trans
    (relocateLoop_preserva capacidade m deposito fuel rotas demandas).1

theorem relocate_len (capacidade : Int) (m : Mat) (deposito : Nat)
    (fuel : Nat) (rotas : List (List Servico)) (demandas : List Int)
    (h : rotas.length ≤ demandas.length) :
    (relocate capacidade m deposito fuel rotas demandas).1.length
      = (relocate capacidade m deposito fuel rotas demandas).2.length := by
  unfold relocate
  apply podaBuggy_len
  obtain ⟨_, h2, h3⟩ :=
    relocateLoop_preserva capacidade m deposito fuel rotas demandas
  omega

theorem paresDuasOpt_le (n : Nat) : ∀ p ∈ paresDuasOpt n, p.1 ≤ p.2 := by
  intro p hp
  unfold paresDuasOpt at hp
  simp only [List.mem_flatMap, List.mem_map] at hp
  obtain ⟨i, hi, j, hj, rfl⟩ := hp
  have := (List.mem_range'_1.mp hj).1
  omega

theorem foldl_reversoes_multiset (m : Mat) (deposito : Nat)
    (ps : List (Nat × Nat)) :
    ∀ acc, (∀ p ∈ ps, p.1 ≤ p.2) →
      ((ps.foldl (fun melhor p =>
        let nova := reverteSegmento melhor p.1 p.2
        if rota_custo m deposito nova < rota_custo m deposito melhor then
          nova
        else melhor) acc : List Servico) : Multiset Servico)
        = (acc : Multiset Servico) := by
  induction ps with
  | nil => intro acc _; rfl
  | cons p ps ih =>
      intro acc hps
      simp only [List.foldl_cons]
      have hp := hps p (List.mem_cons_self p ps)
      by_cases h : rota_custo m deposito (reverteSegmento acc p.1 p.2)
          < rota_custo m deposito acc
      · simp only [h, if_true]
        rw [ih _ (fun q hq => hps q (List.mem_cons_of_mem p hq))]
        exact reverteSegmento_multiset acc p.1 p.2 hp
      · simp only [h, if_false]
        exact ih acc (fun q hq => hps q (List.mem_cons_of_mem p hq))

theorem two_opt_multiset (m : Mat) (deposito : Nat) (rota : List Servico) :
    ((two_opt m deposito rota : List Servico) : Multiset Servico)
      = (rota : Multiset Servico) := by
  unfold two_opt
  by_cases h : rota.length < 3
  · simp [h]
  · simp only [h, if_false]
    exact foldl_reversoes_multiset m deposito (paresDuasOpt rota.length)
      rota (paresDuasOpt_le rota.length)

theorem map_two_opt_multiset (m : Mat) (deposito : Nat)
    (rotas : List (List Servico)) :
    multisetRotas (rotas.map (two_opt m deposito)) = multisetRotas rotas := by
  induction rotas with
  | nil => rfl
  | cons r rs ih =>
      simp only [List.map_cons, multisetRotas_cons, ih, two_opt_multiset]

theorem vnd_multiset (capacidade : Int) (m : Mat) (deposito : Nat)
    (fuel : Nat) (rotas : List (List Servico)) (demandas : List Int) :
    multisetRotas (vnd capacidade m deposito fuel rotas demandas).1
      = multisetRotas rotas := by
  unfold vnd
  exact (map_two_opt_multiset m deposito _).trans
    (relocate_multiset capacidade m deposito fuel rotas demandas)

theorem vnd_len (capacidade : Int) (m : Mat) (deposito : Nat)
    (fuel : Nat) (rotas : List (List Servico)) (demandas : List Int)
    (h : rotas.length ≤ demandas.length) :
    (vnd capacidade m deposito fuel rotas demandas).1.length
      = (vnd capacidade m deposito fuel rotas demandas).2.length := by
  unfold vnd
  simp only [List.length_map]
  exact relocate_len capacidade m deposito fuel rotas demandas h

theorem podaCerta_multiset (rotas : List (List Servico)) :
    ∀ (demandas : List Int), rotas.length = demandas.length →
      multisetRotas (podaCerta rotas demandas).1 = multisetRotas rotas := by
  induction rotas with
  | nil => intro demandas _; rfl
  | cons r rs ih =>
      intro demandas h
      match demandas with
      | [] => simp at h
      | d :: ds =>
          have hrec := ih ds (by simpa using h)
          unfold podaCerta at hrec ⊢
          simp only [List.zip_cons_cons, List.filter_cons]
          by_cases hr : r = []
          · subst hr
            rw [if_neg (by simp)]
            rw [hrec, multisetRotas_cons]
            simp
          · rw [if_pos (by simp [hr])]
            simp only [List.map_cons]
            rw [multisetRotas_cons, multisetRotas_cons, hrec]

theorem podaCerta_len (rotas : List (List Servico)) (demandas : List Int) :
    (podaCerta rotas demandas).1.length
      = (podaCerta rotas demandas).2.length := by
  simp [podaCerta]

theorem srAplica_len (rotas : List (List Servico)) (demandas : List Int)
    (i j start fim : Nat) :
    (srAplica rotas demandas i j start fim).1.length = rotas.length
      ∧ (srAplica rotas demandas i j start fim).2.length
        = demandas.length := by
  unfold srAplica
  simp [List.length_set]

theorem srLoop_multiset (capacidade : Int) (m : Mat) (deposito : Nat) :
    ∀ (fuel : Nat) (rotas : List (List Servico)) (demandas : List Int),
      rotas.length = demandas.length →
      multisetRotas (srLoop capacidade m deposito fuel rotas demandas).1
        = multisetRotas rotas := by
  intro fuel
  induction fuel with
  | zero => intro rotas demandas _; rfl
  | succ n ih =>
      intro rotas demandas hlen
      simp only [srLoop]
      cases hm : srAcha capacidade m deposito rotas demandas with
      | none => exact podaCerta_multiset rotas demandas hlen
      | some mv =>
          have hmv : srAcha capacidade m deposito rotas demandas
              = some (mv.1, mv.2.1, mv.2.2.1, mv.2.2.2) := by rw [hm]
          have happ := srAplica_multiset capacidade m deposito rotas
            demandas mv.1 mv.2.1 mv.2.2.1 mv.2.2.2 hmv
          have hal := srAplica_len rotas demandas mv.1 mv.2.1 mv.2.2.1
            mv.2.2.2
          have hpod := podaCerta_multiset
            (srAplica rotas demandas mv.1 mv.2.1 mv.2.2.1 mv.2.2.2).1
            (srAplica rotas demandas mv.1 mv.2.1 mv.2.2.1 mv.2.2.2).2
            (by rw [hal.1, hal.2]; exact hlen)
          exact ((ih _ _ (podaCerta_len _ _)).trans hpod).trans happ

theorem segment_relocate_multiset (capacidade : Int) (m : Mat)
    (deposito : Nat) (fuel : Nat) (rotas : List (List Servico))
    (demandas : List Int) (servicos_obrigatorios : List Servico)
    (rotasF : List (List Servico)) (demandasF : List Int)
    (hlen : rotas.length = demandas.length)
    (h : (segment_relocate capacidade m deposito fuel rotas demandas
        servicos_obrigatorios).toOption = some (rotasF, demandasF)) :
    multisetRotas rotasF = multisetRotas rotas := by
  simp only [segment_relocate] at h
  split at h
  · simp only [Except.toOption, Option.some_inj, Prod.ext_iff] at h
    rw [← h.1]
    exact srLoop_multiset capacidade m deposito fuel rotas demandas hlen
  · simp [Except.toOption] at h

theorem clarke_wright_multiset (servicos : List Servico) (deposito : Nat)
    (m : Mat) (capacidade : Int) (k : Nat) (escolhas : List Nat)
    (rotas0 : List (List Servico)) (demandas0 : List Int)
    (h : (clarke_wright_grasp servicos deposito m capacidade k
        escolhas).toOption = some (rotas0, demandas0)) :
    multisetRotas rotas0 = (servicos : Multiset Servico)
      ∧ rotas0.length = demandas0.length := by
  simp only [clarke_wright_grasp] at h
  split at h
  · simp only [Except.toOption, Option.some_inj, Prod.ext_iff] at h
    constructor
    · rw [← h.1]
      refine (podaBuggy_multiset _ _).trans ?_
      refine (cwLoop_preserva servicos capacidade k _ _ escolhas _ _).1.trans
        ?_
      exact multisetRotas_singletons servicos
    · rw [← h.1, ← h.2]
      apply podaBuggy_len
      obtain ⟨_, h2, h3⟩ := cwLoop_preserva servicos capacidade k
        (calcular_savings servicos deposito m).length
        (calcular_savings servicos deposito m) escolhas
        (construir_rotas_iniciais servicos).1
        (construir_rotas_iniciais servicos).2
      have e1 : (construir_rotas_iniciais servicos).1.length
          = servicos.length := by
        simp [construir_rotas_iniciais]
      have e2 : (construir_rotas_iniciais servicos).2.length
          = servicos.length := by
        simp [construir_rotas_iniciais]
      omega
  · simp [Except.toOption] at h

/-- C4: coverage invariant.  For every run of the per-trial pipeline whose
construction stage returned (did not raise), the multiset of service ids
across all routes equals the catalog's ids — after construction, after the
relocate operator, after the VND stage (relocate followed by per-route
two-opt), and after the segment-relocate stage whenever it returned — and,
when the catalog ids are distinct, every mandatory service id appears in
the final solution exactly once. -/
theorem pipeline_preserva_cobertura
    (servicos : List Servico) (deposito : Nat) (m : Mat)
    (capacidade : Int) (k fuel : Nat) (escolhas : List Nat)
    (rotas0 rotasF : List (List Servico)) (demandas0 demandasF : List Int)
    (hok : (clarke_wright_grasp servicos deposito m capacidade k
        escolhas).toOption = some (rotas0, demandas0))
    (hseg : (segment_relocate capacidade m deposito fuel
        (vnd capacidade m deposito fuel rotas0 demandas0).1
        (vnd capacidade m deposito fuel rotas0 demandas0).2
        servicos).toOption = some (rotasF, demandasF))
    (hnodup : (servicos.map (fun s => s.id_servico)).Nodup) :
    multisetIds rotas0
        = (↑(servicos.map (fun s => s.id_servico)) : Multiset Nat)
    ∧ multisetIds (relocate capacidade m deposito fuel rotas0 demandas0).1
        = (↑(servicos.map (fun s => s.id_servico)) : Multiset Nat)
    ∧ multisetIds (vnd capacidade m deposito fuel rotas0 demandas0).1
        = (↑(servicos.map (fun s => s.id_servico)) : Multiset Nat)
    ∧ multisetIds rotasF
        = (↑(servicos.map (fun s => s.id_servico)) : Multiset Nat)
    ∧ ∀ s ∈ servicos,
        Multiset.count s.id_servico (multisetIds rotasF) = 1 := by
  obtain ⟨hms0, hlen0⟩ := clarke_wright_multiset servicos deposito m
    capacidade k escolhas rotas0 demandas0 hok
  have hrel : multisetRotas
      (relocate capacidade m deposito fuel rotas0 demandas0).1
        = (servicos : Multiset Servico) :=
    (relocate_multiset capacidade m deposito fuel rotas0 demandas0).trans
      hms0
  have hvnd : multisetRotas
      (vnd capacidade m deposito fuel rotas0 demandas0).1
        = (servicos : Multiset Servico) :=
    (vnd_multiset capacidade m deposito fuel rotas0 demandas0).trans hms0
  have hvl : (vnd capacidade m deposito fuel rotas0 demandas0).1.length
      = (vnd capacidade m deposito fuel rotas0 demandas0).2.length :=
    vnd_len capacidade m deposito fuel rotas0 demandas0 (le_of_eq hlen0)
  have hF : multisetRotas rotasF = (servicos : Multiset Servico) :=
    (segment_relocate_multiset capacidade m deposito fuel _ _ servicos
      rotasF demandasF hvl hseg).trans hvnd
  have toIds : ∀ (rs : List (List Servico)),
      multisetRotas rs = (servicos : Multiset Servico) →
      multisetIds rs
        = (↑(servicos.map (fun s => s.id_servico)) : Multiset Nat) := by
    intro rs h
    unfold multisetIds
    rw [h]
    rfl
  refine ⟨toIds _ hms0, toIds _ hrel, toIds _ hvnd, toIds _ hF, ?_⟩
  intro s hs
  rw [toIds _ hF, Multiset.coe_count]
  exact List.count_eq_one_of_mem hnodup
    (List.mem_map_of_mem (fun t => t.id_servico) hs)

/-- Witness for C4 on the concrete scenario run (construction returned
`([[sA,sB],[sC]], [7,0])`, segment relocation returned
`([[sB],[sC,sA]], [3,4])`). -/
theorem pipeline_preserva_cobertura_witness :
    multisetIds [[sA, sB], [sC]]
        = (↑(servicosEx.map (fun s => s.id_servico)) : Multiset Nat)
    ∧ multisetIds (relocate 8 mEx 0 16 [[sA, sB], [sC]] [7, 0]).1
        = (↑(servicosEx.map (fun s => s.id_servico)) : Multiset Nat)
    ∧ multisetIds (vnd 8 mEx 0 16 [[sA, sB], [sC]] [7, 0]).1
        = (↑(servicosEx.map (fun s => s.id_servico)) : Multiset Nat)
    ∧ multisetIds [[sB], [sC, sA]]
        = (↑(servicosEx.map (fun s => s.id_servico)) : Multiset Nat)
    ∧ ∀ s ∈ servicosEx,
        Multiset.count s.id_servico (multisetIds [[sB], [sC, sA]]) = 1 :=
  pipeline_preserva_cobertura servicosEx 0 mEx 8 3 16 escolhasEx
    [[sA, sB], [sC]] [[sB], [sC, sA]] [7, 0] [3, 4]
    (by decide) (by decide) (by decide)

theorem msLoop_sem_relogio (servicos : List Servico) (deposito : Nat)
    (m : Mat) (capacidade : Int) (servicos_obrigatorios : List Servico)
    (k fuel : Nat) (rng : Nat → List Nat)
    (relogios1 relogios2 : Nat → Int) :
    ∀ (ts : List Nat) (st1 st2 : EstadoMS),
      st1.melhor = st2.melhor → st1.melhor_rotas = st2.melhor_rotas →
      st1.melhor_demandas = st2.melhor_demandas →
      (msLoop servicos deposito m capacidade servicos_obrigatorios k fuel
          rng relogios1 ts st1).toOption.map
        (fun st => (st.melhor, st.melhor_rotas, st.melhor_demandas))
        = (msLoop servicos deposito m capacidade servicos_obrigatorios k
            fuel rng relogios2 ts st2).toOption.map
          (fun st => (st.melhor, st.melhor_rotas, st.melhor_demandas)) := by
  intro ts
  induction ts with
  | nil =>
      intro st1 st2 h1 h2 h3
      simp [msLoop, Except.toOption, h1, h2, h3]
  | cons t ts ih =>
      intro st1 st2 h1 h2 h3
      simp only [msLoop]
      cases htp : tentativaPipeline servicos deposito m capacidade
          servicos_obrigatorios k fuel (rng (12345 + t)) with
      | error e => rfl
      | ok r =>
          dsimp only
          rw [h1]
          by_cases hv : (idsSetEq
              (servicos_obrigatorios.map (fun s => s.id_servico))
              (idsNasRotas r.1) && decide (idsNasRotas r.1).Nodup) = true
          · rw [if_pos hv, if_pos hv]
            by_cases hac : aceitaCandidato st2.melhor
                ((r.1.map (rota_custo m deposito)).sum) r.1.length = true
            · rw [if_pos hac, if_pos hac]
              exact ih _ _ rfl rfl rfl
            · rw [if_neg hac, if_neg hac]
              exact ih st1 st2 h1 h2 h3
          · rw [if_neg hv, if_neg hv]
            exact ih st1 st2 h1 h2 h3

/-- C7: the multi-start driver is deterministic in everything but the
wall clock.  Two runs of `multi_start_pipeline` with the same catalog,
depot, distance oracle, capacity, GRASP pool size, trial count, and the
same seeded randomness function (each trial draws its choices from the
seed `12345 + t`, a pure function of the trial index) return the same
best route set and demand list — and hence the same best total cost and
best route count — regardless of the clock oracles. -/
theorem multi_start_deterministico (servicos : List Servico)
    (deposito : Nat) (m : Mat) (capacidade : Int)
    (servicos_obrigatorios : List Servico)
    (k_grasp num_tentativas fuel : Nat) (rng : Nat → List Nat)
    (relogios1 relogios2 : Nat → Int) (inicio1 fim1 inicio2 fim2 : Int) :
    (multi_start_pipeline servicos deposito m capacidade
        servicos_obrigatorios k_grasp num_tentativas fuel rng relogios1
        inicio1 fim1).toOption.map (fun r => (r.1, r.2.1))
      = (multi_start_pipeline servicos deposito m capacidade
          servicos_obrigatorios k_grasp num_tentativas fuel rng relogios2
          inicio2 fim2).toOption.map (fun r => (r.1, r.2.1))
    ∧ (multi_start_pipeline servicos deposito m capacidade
        servicos_obrigatorios k_grasp num_tentativas fuel rng relogios1
        inicio1 fim1).toOption.map (fun r =>
          r.1.map (fun rs =>
            ((rs.map (rota_custo m deposito)).sum, rs.length)))
      = (multi_start_pipeline servicos deposito m capacidade
          servicos_obrigatorios k_grasp num_tentativas fuel rng relogios2
          inicio2 fim2).toOption.map (fun r =>
          r.1.map (fun rs =>
            ((rs.map (rota_custo m deposito)).sum, rs.length))) := by
  have h := msLoop_sem_relogio servicos deposito m capacidade
    servicos_obrigatorios k_grasp fuel rng relogios1 relogios2
    (List.range num_tentativas) ⟨none, none, none, none⟩
    ⟨none, none, none, none⟩ rfl rfl rfl
  have hmain : (multi_start_pipeline servicos deposito m capacidade
      servicos_obrigatorios k_grasp num_tentativas fuel rng relogios1
      inicio1 fim1).toOption.map (fun r => (r.1, r.2.1))
      = (multi_start_pipeline servicos deposito m capacidade
        servicos_obrigatorios k_grasp num_tentativas fuel rng relogios2
        inicio2 fim2).toOption.map (fun r => (r.1, r.2.1)) := by
    unfold multi_start_pipeline
    cases hm1 : msLoop servicos deposito m capacidade
        servicos_obrigatorios k_grasp fuel rng relogios1
        (List.range num_tentativas) ⟨none, none, none, none⟩ with
    | error e1 =>
        cases hm2 : msLoop servicos deposito m capacidade
            servicos_obrigatorios k_grasp fuel rng relogios2
            (List.range num_tentativas) ⟨none, none, none, none⟩ with
        | error e2 => rfl
        | ok st2 =>
            rw [hm1, hm2] at h
            simp [Except.toOption] at h
    | ok st1 =>
        cases hm2 : msLoop servicos deposito m capacidade
            servicos_obrigatorios k_grasp fuel rng relogios2
            (List.range num_tentativas) ⟨none, none, none, none⟩ with
        | error e2 =>
            rw [hm1, hm2] at h
            simp [Except.toOption] at h
        | ok st2 =>
            rw [hm1, hm2] at h
            simp only [Except.toOption] at h
            simp only [Option.map_some', Option.some_inj,
              Prod.ext_iff] at h
            simp [Except.toOption, h.2.1, h.2.2]
  refine ⟨hmain, ?_⟩
  have := congrArg (Option.map (fun p :
      Option (List (List Servico)) × Option (List Int) =>
        p.1.map (fun rs =>
          ((rs.map (rota_custo m deposito)).sum, rs.length)))) hmain
  simpa [Option.map_map, Function.comp] using this

end Grafos
